import Mathlib

/-!
Verification of the row-block parser of `state_income_tax/ingest.py`.

The Python module is shallowly embedded here: cell values become the
inductive type `PyVal`, worksheet rows become lists of cells, fallible
Python code (code that can raise) becomes `Except PyErr`, and each
Python function of the module is translated to a Lean definition of the
same name.  Python string primitives are modelled by fuel-based
executable helpers over the character list of a `String`, so that every
definition evaluates inside the kernel.
-/

namespace StateIncomeTax

/-! ### Python string primitives -/

/-- Models Python `str.lower` (ASCII, which covers all names in the data). -/
def strLower (s : String) : String := ⟨s.data.map Char.toLower⟩

/-- ASCII uppercasing, used only to build casing variants in theorem statements. -/
def strUpper (s : String) : String := ⟨s.data.map Char.toUpper⟩

/-- The characters stripped by Python `str.strip()`. -/
def isStripChar (c : Char) : Bool :=
  c == ' ' || c == '\t' || c == '\n' || c == '\r' || c == '\x0B' || c == '\x0C'

/-- Models Python `str.strip()`: drop the strip characters from both ends. -/
def strTrim (s : String) : String :=
  ⟨((s.data.dropWhile isStripChar).reverse.dropWhile isStripChar).reverse⟩

/-- Fuel-based core of `strReplace`; the fuel starts at the length of the
    text, which bounds the number of recursive steps for a non-empty pattern. -/
def replaceAux (pat rep : List Char) : Nat → List Char → List Char
  | _, [] => []
  | 0, l => l
  | fuel + 1, c :: cs =>
    if pat.isPrefixOf (c :: cs) then
      rep ++ replaceAux pat rep fuel ((c :: cs).drop pat.length)
    else
      c :: replaceAux pat rep fuel cs

/-- Models Python `str.replace(pat, rep)` (all occurrences, left to right);
    the module only ever calls it with a non-empty pattern. -/
def strReplace (s pat rep : String) : String :=
  if pat.data.isEmpty then s else ⟨replaceAux pat.data rep.data s.data.length s.data⟩

/-- Fuel-based core of `strSplitOn`; `acc` holds the current segment reversed. -/
def splitAux (sep : List Char) : Nat → List Char → List Char → List (List Char)
  | _, acc, [] => [acc.reverse]
  | 0, acc, l => [acc.reverse ++ l]
  | fuel + 1, acc, c :: cs =>
    if sep.isPrefixOf (c :: cs) then
      acc.reverse :: splitAux sep fuel [] ((c :: cs).drop sep.length)
    else
      splitAux sep fuel (c :: acc) cs

/-- Models Python `str.split(sep)` for a non-empty separator. -/
def strSplitOn (s sep : String) : List String :=
  if sep.data.isEmpty then [s]
  else (splitAux sep.data s.data.length [] s.data).map (fun l => ⟨l⟩)

/-- Core of `strContains`: does `needle` occur as a contiguous sublist? -/
def containsAux (needle : List Char) : List Char → Bool
  | [] => needle.isPrefixOf []
  | c :: cs => needle.isPrefixOf (c :: cs) || containsAux needle cs

/-- Models the Python membership test `needle in hay` on strings. -/
def strContains (hay needle : String) : Bool := containsAux needle.data hay.data

/-- Models Python `str.startswith`. -/
def strStartsWith (s p : String) : Bool := p.data.isPrefixOf s.data

/-- Numeric value of an ASCII digit. -/
def digitVal (c : Char) : Nat := c.toNat - 48

/-- Decimal reading of a digit list. -/
def digitsToNat (l : List Char) : Nat := l.foldl (fun n c => n * 10 + digitVal c) 0

/-- Models Python `int(str)`: optional surrounding whitespace, an optional
    sign, then one or more ASCII digits; anything else raises ValueError,
    rendered here as `none`. -/
def pyInt (s : String) : Option Int :=
  match (strTrim s).data with
  | '-' :: ds =>
    if !ds.isEmpty && ds.all Char.isDigit then some (-(digitsToNat ds : Int)) else none
  | '+' :: ds =>
    if !ds.isEmpty && ds.all Char.isDigit then some ((digitsToNat ds : Int)) else none
  | ds =>
    if !ds.isEmpty && ds.all Char.isDigit then some ((digitsToNat ds : Int)) else none

/-- Lexicographic comparison of character lists by code point; this is how
    Python compares strings with `<`. -/
def strLtB : List Char → List Char → Bool
  | [], [] => false
  | [], _ :: _ => true
  | _ :: _, [] => false
  | a :: as, b :: bs =>
    if a.toNat < b.toNat then true
    else if b.toNat < a.toNat then false
    else strLtB as bs

/-- Python `a < b` on strings. -/
def str_lt (a b : String) : Bool := strLtB a.data b.data

/-- Python `a <= b` on strings: not `b < a`. -/
def str_le (a b : String) : Bool := !(strLtB b.data a.data)

/-! ### Data model

A grid cell has a raw value and a flag recording whether it is an
`openpyxl` `MergedCell` (a merge-continuation cell, carrying no value of
its own).  A worksheet row is the list of its cells; `cellAt` is Python
subscripting, total here because every row of the publication has the
full fixed column count (theorems that quantify over arbitrary rows
carry that width as a hypothesis). -/

/-- A Python value as it occurs in the module: cell contents are text,
    numbers or empty; the module builds booleans, lists and string-keyed
    dicts out of them. -/
inductive PyVal where
  | none
  | int (n : Int)
  | float (q : Rat)
  | str (s : String)
  | bool (b : Bool)
  | list (xs : List PyVal)
  | dict (kvs : List (String × PyVal))

/-- The Python exceptions the module can raise. -/
inductive PyErr where
  | typeError
  | valueError
  | keyError
  | attributeError
  | indexError
  | systemExit
deriving DecidableEq

/-- One grid cell: raw value plus the merge-continuation flag
    (`isinstance(cell, openpyxl.cell.cell.MergedCell)`). -/
structure Cell where
  value : PyVal
  merged : Bool

/-- A worksheet row. -/
abbrev Row := List Cell

/-- Python subscripting `row[i]` on a full-width row. -/
def cellAt (r : Row) (i : Nat) : Cell := r.getD i ⟨.none, false⟩

/-- Python truthiness of the values above: `bool(x)`. -/
def truthy : PyVal → Bool
  | .none => false
  | .int n => n != 0
  | .float q => q != 0
  | .str s => s != ""
  | .bool b => b
  | .list xs => !xs.isEmpty
  | .dict kvs => !kvs.isEmpty

/-- Looking a key up in a dict value (`d[k]` when it succeeds). -/
def dlookup (v : PyVal) (k : String) : Option PyVal :=
  match v with
  | .dict kvs => kvs.lookup k
  | _ => Option.none

/-- The keys of a dict value, in insertion order. -/
def dict_keys : PyVal → List String
  | .dict kvs => kvs.map Prod.fst
  | _ => []

/-- Modelled from the spec: `STATE_CODE_MAP`, the fixed name-to-code table
    imported from `state_income_tax/constants.py`, a file that is not part
    of the sources here.  Per the spec it maps state display names, in the
    lowercase form the resolver produces, to two-letter codes. -/
def STATE_CODE_MAP : List (String × String) :=
  [("alabama", "AL"), ("alaska", "AK"), ("arizona", "AZ"), ("arkansas", "AR"),
   ("california", "CA"), ("colorado", "CO"), ("connecticut", "CT"),
   ("delaware", "DE"), ("district of columbia", "DC"), ("florida", "FL"),
   ("georgia", "GA"), ("hawaii", "HI"), ("idaho", "ID"), ("illinois", "IL"),
   ("indiana", "IN"), ("iowa", "IA"), ("kansas", "KS"), ("kentucky", "KY"),
   ("louisiana", "LA"), ("maine", "ME"), ("maryland", "MD"),
   ("massachusetts", "MA"), ("michigan", "MI"), ("minnesota", "MN"),
   ("mississippi", "MS"), ("missouri", "MO"), ("montana", "MT"),
   ("nebraska", "NE"), ("nevada", "NV"), ("new hampshire", "NH"),
   ("new jersey", "NJ"), ("new mexico", "NM"), ("new york", "NY"),
   ("north carolina", "NC"), ("north dakota", "ND"), ("ohio", "OH"),
   ("oklahoma", "OK"), ("oregon", "OR"), ("pennsylvania", "PA"),
   ("rhode island", "RI"), ("south carolina", "SC"), ("south dakota", "SD"),
   ("tennessee", "TN"), ("texas", "TX"), ("utah", "UT"), ("vermont", "VT"),
   ("virginia", "VA"), ("washington", "WA"), ("west virginia", "WV"),
   ("wisconsin", "WI"), ("wyoming", "WY")]

/-! ### Field normalizers (`ingest.py` lines 27-45, 64-69) -/

/-- Embeds `get_state_code` (lines 27-31).  `if not value: return ""` is
    expanded per value shape; a truthy non-string has no `.lower()` and
    raises AttributeError. -/
def get_state_code : PyVal → Except PyErr String
  | .none => .ok ""
  | .int n => if n = 0 then .ok "" else .error .attributeError
  | .float q => if q = 0 then .ok "" else .error .attributeError
  | .bool b => if b = false then .ok "" else .error .attributeError
  | .list xs => if xs.isEmpty then .ok "" else .error .attributeError
  | .dict kvs => if kvs.isEmpty then .ok "" else .error .attributeError
  | .str s =>
    if s = "" then .ok ""
    else
      .ok ((STATE_CODE_MAP.lookup
        ((strSplitOn (strReplace (strLower s) "." "") "(").headD "")).getD "")

/-- The entry `clean_deduction` returns for empty or not-applicable cells. -/
def null_entry : PyVal := .dict [("value", .none), ("credit", .bool false)]

/-- Embeds `clean_deduction` (lines 34-45).  The `isinstance(value, int)`
    test also accepts Python booleans (bool is an int subtype); the
    `not value` test is expanded per value shape; a truthy non-string has
    no `.lower()` and raises AttributeError; `int(...)` of a malformed
    remainder raises ValueError. -/
def clean_deduction : PyVal → Except PyErr PyVal
  | .int n => .ok (.dict [("value", .int n), ("credit", .bool false)])
  | .bool b => .ok (.dict [("value", .bool b), ("credit", .bool false)])
  | .none => .ok null_entry
  | .float q => if q = 0 then .ok null_entry else .error .attributeError
  | .list xs => if xs.isEmpty then .ok null_entry else .error .attributeError
  | .dict kvs => if kvs.isEmpty then .ok null_entry else .error .attributeError
  | .str s =>
    if s = "" then .ok null_entry
    else if strReplace (strTrim (strLower s)) "." "" = "na" then .ok null_entry
    else if strContains (strLower s) "credit" then
      match pyInt (strTrim (strReplace (strReplace (strReplace s "credit" "") "$" "") "," "")) with
      | some n => .ok (.dict [("value", .int n), ("credit", .bool true)])
      | Option.none => .error .valueError
    else .ok (.dict [("value", .str s), ("credit", .bool false)])

/-- Embeds `extract_codes` (lines 64-69): parenthetical reference codes
    from the column-0 text of a row. -/
def extract_codes (row : Row) : List String :=
  match (cellAt row 0).value with
  | .str s =>
    if strContains s "(" then
      (strSplitOn (strReplace ((strSplitOn s "(").getD 1 "") ")" "") ",").map strTrim
    else []
  | _ => []

/-! ### State block extractor (`ingest.py` lines 48-61, 72-120) -/

/-- Embeds `extract_deductions` (lines 48-61): the five deduction and
    exemption cells of the first row, each passed through
    `clean_deduction`, assembled into the nested dict the code builds. -/
def extract_deductions (row : Row) : Except PyErr PyVal :=
  match clean_deduction (cellAt row 7).value with
  | .error e => .error e
  | .ok sd_single =>
  match clean_deduction (cellAt row 8).value with
  | .error e => .error e
  | .ok sd_married =>
  match clean_deduction (cellAt row 9).value with
  | .error e => .error e
  | .ok pe_single =>
  match clean_deduction (cellAt row 10).value with
  | .error e => .error e
  | .ok pe_married =>
  match clean_deduction (cellAt row 11).value with
  | .error e => .error e
  | .ok pe_dependant =>
    .ok (.dict
      [("standard_deductions", .dict [("single", sd_single), ("married", sd_married)]),
       ("personal_exemptions", .dict
         [("single", pe_single), ("married", pe_married), ("dependant", pe_dependant)])])

/-- The truthy cell values of the trailing notes columns `row[12:]`. -/
def row_notes (row : Row) : List PyVal :=
  (row.drop 12).filterMap (fun c => if truthy c.value then some c.value else Option.none)

/-- Embeds `extract_notes` (lines 72-84).  The caller passes
    `rows[1] if len(rows) > 1 else None`; when the second argument is
    `None` the loop body evaluates `None[12:]`, which raises TypeError. -/
def extract_notes (row1 : Row) (row2 : Option Row) : Except PyErr (List PyVal × List String) :=
  match row2 with
  | Option.none => .error .typeError
  | some r2 => .ok (row_notes row1 ++ row_notes r2, extract_codes row1 ++ extract_codes r2)

/-- The columns whose values decide whether a row carries bracket data. -/
def key_cols : List Nat := [1, 3, 4, 6]

/-- `any([x.value for idx, x in enumerate(row) if idx in key_cols])`. -/
def is_data_row (row : Row) : Bool :=
  ((row.enum.filter (fun p => key_cols.contains p.1)).map (fun p => p.2.value)).any truthy

/-- The single-filer bracket dict built from a data row. -/
def bracket_single (row : Row) : PyVal :=
  .dict [("rate", (cellAt row 1).value), ("start_value", (cellAt row 3).value)]

/-- The married-filer bracket dict built from a data row. -/
def bracket_married (row : Row) : PyVal :=
  .dict [("rate", (cellAt row 4).value), ("start_value", (cellAt row 6).value)]

/-- Embeds `process_state` (lines 87-120): resolve the code, extract
    deductions and notes, then branch on whether the first row's third
    column is a merge-continuation cell. -/
def process_state : List Row → Except PyErr (String × PyVal)
  | [] => .error .indexError
  | row0 :: rest =>
    match get_state_code (cellAt row0 0).value with
    | .error e => .error e
    | .ok state_code =>
    match extract_deductions row0 with
    | .error e => .error e
    | .ok deductions =>
    match extract_notes row0 rest.head? with
    | .error e => .error e
    | .ok (notes, note_codes) =>
      if (cellAt row0 2).merged then
        .ok (state_code, .dict
          [("single", .list []), ("married", .list []),
           ("notes", .list (notes ++ [(cellAt row0 1).value])),
           ("note_codes", .list (note_codes.map .str)),
           ("deductions", deductions)])
      else
        .ok (state_code, .dict
          [("single", .list (((row0 :: rest).filter is_data_row).map bracket_single)),
           ("married", .list (((row0 :: rest).filter is_data_row).map bracket_married)),
           ("note_codes", .list (note_codes.map .str)),
           ("notes", .list notes),
           ("deductions", deductions)])

/-! ### Sheet segmenter (`ingest.py` lines 123-151) -/

/-- Python dict assignment `states[k] = v`: overwrite in place if the key
    exists, otherwise append. -/
def dict_set (kvs : List (String × PyVal)) (k : String) (v : PyVal) :
    List (String × PyVal) :=
  if kvs.any (fun p => p.1 == k) then
    kvs.map (fun p => if p.1 == k then (k, v) else p)
  else kvs ++ [(k, v)]

/-- Embeds the row loop of `process_sheet` (lines 133-148): `states` is the
    mapping built so far and `state_rows` the accumulator of the current
    block.  A merge-continuation cell in the second column breaks out of
    the loop, and the loop never flushes the pending accumulator, neither
    at the break nor when the rows run out. -/
def process_sheet_loop :
    List Row → List (String × PyVal) → List Row → Except PyErr (List (String × PyVal))
  | [], states, _ => .ok states
  | row :: rest, states, state_rows =>
    if (cellAt row 1).merged then .ok states
    else
      match get_state_code (cellAt row 0).value with
      | .error e => .error e
      | .ok state_code =>
        if state_code ≠ "" then
          match state_rows with
          | [] => process_sheet_loop rest states [row]
          | _ :: _ =>
            match process_state state_rows with
            | .error e => .error e
            | .ok (st, data) => process_sheet_loop rest (dict_set states st data) [row]
        else process_sheet_loop rest states (state_rows ++ [row])

/-- Embeds `process_sheet` (lines 123-151): run the row loop, then the
    diagnostic `print(json.dumps(states["MD"]))`, whose subscript raises
    KeyError when Maryland is absent from the mapping. -/
def process_sheet (sheet : List Row) : Except PyErr (List (String × PyVal)) :=
  match process_sheet_loop sheet [] [] with
  | .error e => .error e
  | .ok states =>
    match states.lookup "MD" with
    | Option.none => .error .keyError
    | some _ => .ok states

/-! ### Year driver (`ingest.py` lines 159-176) -/

/-- The sheet-name test of line 163: exactly four characters, starting
    with "20". -/
def is_year_name (n : String) : Bool := n.data.length == 4 && strStartsWith n "20"

/-- Insert a name into a descending-sorted list, keeping it sorted. -/
def insert_desc (x : String) : List String → List String
  | [] => [x]
  | y :: ys => if str_lt y x then x :: y :: ys else y :: insert_desc x ys

/-- Models `names.sort(reverse=True)` (line 164): a stable descending sort
    of strings; a stable sort is unique as a function, so insertion sort
    has exactly the behaviour of the Python sort. -/
def sort_desc : List String → List String
  | [] => []
  | x :: xs => insert_desc x (sort_desc xs)

/-- The sheet names that pass the year filter, in workbook order. -/
def year_matching (sheets : List (String × List Row)) : List String :=
  (sheets.map Prod.fst).filter is_year_name

/-- The sheet name the driver actually processes: the head of the
    descending-sorted candidate list (`names[0]`). -/
def main_year (sheets : List (String × List Row)) : String :=
  (sort_desc (year_matching sheets)).headD ""

/-- Embeds the body of `main` after workbook loading (lines 163-176): filter
    the sheet names, sort descending, exit with SystemExit when nothing
    matches, otherwise process sheets in order - and the unconditional
    `break` makes the loop body run exactly once, so only the first sorted
    name is ever processed. -/
def main_run (sheets : List (String × List Row)) :
    Except PyErr (List (String × List (String × PyVal))) :=
  match sort_desc (year_matching sheets) with
  | [] => .error .systemExit
  | top :: _ =>
    match sheets.lookup top with
    | Option.none => .error .keyError
    | some sheet =>
      match process_sheet sheet with
      | .error e => .error e
      | .ok states => .ok [(top, states)]

/-! ### Order facts about the descending sort -/

theorem strLtB_irrefl : ∀ l, strLtB l l = false := by
  intro l
  induction l with
  | nil => rfl
  | cons c cs ih => simp [strLtB, ih]

theorem strLtB_asymm : ∀ a b, strLtB a b = true → strLtB b a = false := by
  intro a
  induction a with
  | nil =>
    intro b h
    cases b with
    | nil => simp [strLtB] at h
    | cons y ys => rfl
  | cons x xs ih =>
    intro b h
    cases b with
    | nil => simp [strLtB] at h
    | cons y ys =>
      simp only [strLtB] at h ⊢
      by_cases hxy : x.toNat < y.toNat
      · simp [show ¬ y.toNat < x.toNat by omega, hxy]
      · by_cases hyx : y.toNat < x.toNat
        · simp [hxy, hyx] at h
        · simp only [hxy, hyx, if_false] at h
          simp [hxy, hyx, ih ys h]

theorem strLtB_trans_or :
    ∀ c a, strLtB c a = true → ∀ b, strLtB c b = true ∨ strLtB b a = true := by
  intro c
  induction c with
  | nil =>
    intro a h b
    cases a with
    | nil => simp [strLtB] at h
    | cons y ys =>
      cases b with
      | nil => exact Or.inr rfl
      | cons z zs => exact Or.inl rfl
  | cons x xs ih =>
    intro a h b
    cases a with
    | nil => simp [strLtB] at h
    | cons y ys =>
      cases b with
      | nil => exact Or.inr rfl
      | cons z zs =>
        simp only [strLtB] at h ⊢
        by_cases hxz : x.toNat < z.toNat
        · left
          simp [hxz]
        · by_cases hzy : z.toNat < y.toNat
          · right
            simp [hzy]
          · by_cases hxy : x.toNat < y.toNat
            · omega
            · by_cases hyx : y.toNat < x.toNat
              · simp [hxy, hyx] at h
              · simp only [hxy, hyx, if_false] at h
                have hxz2 : ¬ z.toNat < x.toNat := by omega
                have hyz : ¬ y.toNat < z.toNat := by omega
                simpa [hxz, hxz2, hzy, hyz] using ih ys h zs

theorem str_le_refl (a : String) : str_le a a = true := by
  simp [str_le, strLtB_irrefl]

theorem str_le_trans {a b c : String} (h1 : str_le a b = true) (h2 : str_le b c = true) :
    str_le a c = true := by
  simp only [str_le, Bool.not_eq_true', Bool.not_eq_true] at h1 h2 ⊢
  by_contra hne
  have hca : strLtB c.data a.data = true := by
    cases h : strLtB c.data a.data
    · exact absurd h hne
    · rfl
  rcases strLtB_trans_or c.data a.data hca b.data with h3 | h3
  · rw [h2] at h3
    exact Bool.false_ne_true h3
  · rw [h1] at h3
    exact Bool.false_ne_true h3

theorem str_lt_false_le {a b : String} (h : str_lt a b = false) : str_le b a = true := by
  simpa [str_le, str_lt] using h

theorem str_lt_true_le {a b : String} (h : str_lt a b = true) : str_le a b = true := by
  simp only [str_lt] at h
  simp [str_le, strLtB_asymm _ _ h]

theorem mem_insert_desc (x : String) :
    ∀ l y, y ∈ insert_desc x l ↔ y = x ∨ y ∈ l := by
  intro l
  induction l with
  | nil => intro y; simp [insert_desc]
  | cons a t ih =>
    intro y
    simp only [insert_desc]
    by_cases h : str_lt a x = true
    · rw [if_pos h]
      simp [List.mem_cons]
    · rw [if_neg h]
      simp only [List.mem_cons, ih y]
      tauto

theorem insert_desc_ne_nil (x : String) : ∀ l, insert_desc x l ≠ [] := by
  intro l
  cases l with
  | nil => simp [insert_desc]
  | cons a t =>
    simp only [insert_desc]
    by_cases h : str_lt a x = true <;> simp [h]

theorem mem_sort_desc : ∀ l x, x ∈ sort_desc l ↔ x ∈ l := by
  intro l
  induction l with
  | nil => intro x; simp [sort_desc]
  | cons a t ih =>
    intro x
    simp [sort_desc, mem_insert_desc, ih x]

theorem sort_desc_eq_nil : ∀ l, sort_desc l = [] → l = [] := by
  intro l h
  cases l with
  | nil => rfl
  | cons a t => exact absurd h (insert_desc_ne_nil a (sort_desc t))

/-- The head of the descending insertion sort bounds every list element
    from above: the driver picks the greatest candidate name. -/
theorem sort_desc_head_max :
    ∀ l x d, x ∈ l → str_le x ((sort_desc l).headD d) = true := by
  intro l
  induction l with
  | nil => intro x d h; exact absurd h (List.not_mem_nil x)
  | cons a t ih =>
    intro x d h
    show str_le x ((insert_desc a (sort_desc t)).headD d) = true
    rcases List.mem_cons.mp h with rfl | hmem
    · cases hs : sort_desc t with
      | nil => simp [insert_desc, str_le_refl]
      | cons y ys =>
        simp only [insert_desc]
        by_cases hc : str_lt y x = true
        · rw [if_pos hc]
          simp [str_le_refl]
        · rw [if_neg hc]
          simp only [List.headD_cons]
          exact str_lt_false_le (by simpa using hc)
    · have hxy := ih x d hmem
      cases hs : sort_desc t with
      | nil =>
        exact absurd ((mem_sort_desc t x).mpr hmem) (by simp [hs])
      | cons y ys =>
        rw [hs, List.headD_cons] at hxy
        simp only [insert_desc]
        by_cases hc : str_lt y a = true
        · rw [if_pos hc]
          simp only [List.headD_cons]
          exact str_le_trans hxy (str_lt_true_le hc)
        · rw [if_neg hc]
          simp only [List.headD_cons]
          exact hxy

/-! ### Concrete fixtures

Small worksheets in the layout of the publication (full 13-column rows:
name, rate columns, deduction columns, one trailing notes column), used
as failing inputs and witnesses. -/

/-- A plain (non-merged) cell. -/
def pcell (v : PyVal) : Cell := ⟨v, false⟩

/-- A merge-continuation cell. -/
def mcell : Cell := ⟨.none, true⟩

/-- A row of plain cells. -/
def mkRow (vs : List PyVal) : Row := vs.map pcell

/-- A state-start row for Alabama with bracket data and deduction figures. -/
def alabama_row : Row := mkRow [.str "Alabama", .int 2, .none, .int 500, .int 2, .none,
  .int 1000, .int 3000, .int 8500, .int 1500, .int 3000, .int 1000, .str "see note a"]

/-- A continuation row of the Alabama block carrying a further bracket rung. -/
def cont_row : Row := mkRow [.none, .int 4, .none, .int 3000, .int 4, .none,
  .int 6000, .none, .none, .none, .none, .none, .none]

/-- A state-start row for Alaska. -/
def alaska_row : Row := mkRow [.str "Alaska", .none, .none, .none, .none, .none,
  .none, .none, .none, .none, .none, .none, .str "no tax"]

/-- The merge-continuation sentinel row that opens the footer section:
    its second column is part of a merged region. -/
def sentinel_row : Row := pcell (.str "Notes:") :: mcell :: mkRow (List.replicate 11 .none)

/-- A footer row after the sentinel. -/
def footer_row : Row := mkRow ((.str "(a) a footnote") :: List.replicate 12 .none)

/-- The segmenter scenario sheet: Alabama start, continuation, Alaska
    start, the sentinel, then footer text. -/
def sample_sheet : List Row := [alabama_row, cont_row, alaska_row, sentinel_row, footer_row]

/-- The mapping the row loop produces on `sample_sheet`. -/
def sample_states : List (String × PyVal) :=
  (process_sheet_loop sample_sheet [] []).toOption.getD []

/-- Claim C1: the spec requires the segmenter, on reaching the
    merge-continuation sentinel, to flush the pending non-empty accumulator
    as the final block, so that the scenario sheet yields two blocks
    (Alabama with two rows, Alaska with one).  The code instead breaks out
    of the loop without flushing: on the scenario sheet the produced
    mapping has exactly the single key "AL", and the Alaska block is
    dropped. -/
theorem segmenter_drops_last_block_at_sentinel :
    (process_sheet_loop sample_sheet [] []).map (fun l => l.map Prod.fst) = .ok ["AL"] := rfl

/-- Claim C3: the spec says a one-row block extracts successfully, the
    second row being consulted only when present.  The code passes
    `None` for the missing second row and `extract_notes` subscripts it,
    so extraction of a one-row block raises TypeError instead. -/
theorem single_row_block_raises :
    process_state [alaska_row] = .error .typeError := rfl

/-- Claim C10: processing a sheet has a hard Maryland dependency.  If the
    row loop succeeds but its mapping has no "MD" key, `process_sheet`
    raises KeyError instead of returning the mapping; and whenever
    `process_sheet` does return a mapping, that mapping contains "MD". -/
theorem process_sheet_requires_maryland :
    (∀ sheet states, process_sheet_loop sheet [] [] = .ok states →
      states.lookup "MD" = Option.none → process_sheet sheet = .error .keyError) ∧
    (∀ sheet states, process_sheet sheet = .ok states →
      (states.lookup "MD").isSome = true) := by
  constructor
  · intro sheet states h hmd
    simp only [process_sheet, h, hmd]
  · intro sheet states h
    simp only [process_sheet] at h
    split at h
    · exact Except.noConfusion h
    · rename_i states0 heq
      split at h
      · exact Except.noConfusion h
      · rename_i v hlook
        have hst : states0 = states := by
          have := Except.ok.inj h
          exact this
        rw [hst] at hlook
        simp [hlook]

/-- Witness for C10: the scenario sheet segments successfully to a mapping
    with only Alabama, and `process_sheet` on it raises KeyError. -/
theorem process_sheet_requires_maryland_witness :
    process_sheet sample_sheet = .error .keyError :=
  process_sheet_requires_maryland.1 sample_sheet sample_states rfl rfl

/-- Claim C2, counterexample: the literal "N/A" is not mapped to the null
    entry.  Its normalization keeps the slash, misses the "na" test, and
    the text is passed through unchanged: the value field of the result is
    the raw string "N/A", which is not the null value. -/
theorem clean_na_literal_counterexample :
    (clean_deduction (.str "N/A")).map (fun d => dlookup d "value") =
      .ok (some (.str "N/A")) ∧
    PyVal.str "N/A" ≠ PyVal.none :=
  ⟨rfl, fun h => PyVal.noConfusion h⟩

/-- Claim C2, amended: `clean_deduction` maps the empty string, and every
    string that equals "na" after lowercasing, trimming and then removing
    periods, to the entry with null value and credit false; the literal
    "N/A" is not such a string because the slash survives normalization,
    and it is passed through unchanged instead. -/
theorem clean_na_normalized (s : String)
    (h : s = "" ∨ strReplace (strTrim (strLower s)) "." "" = "na") :
    clean_deduction (.str s) = .ok null_entry := by
  rcases h with rfl | h
  · rfl
  · by_cases hs : s = ""
    · subst hs
      rfl
    · simp only [clean_deduction, if_neg hs, if_pos h]

/-- Witness for the amended C2 at the concrete input "N.A.". -/
theorem clean_na_normalized_witness :
    clean_deduction (.str "N.A.") = .ok null_entry :=
  clean_na_normalized "N.A." (Or.inr rfl)

/-- Claim C9, counterexample: a numeric input that is not an int does not
    yield a value entry.  The code only tests `isinstance(value, int)`;
    a non-zero float falls through to the string branch and its missing
    `.lower()` raises AttributeError. -/
theorem clean_float_raises_counterexample :
    clean_deduction (.float 4500) = .error .attributeError := rfl

/-- Claim C9, amended: every int input is returned as the raw value with
    credit false, but a numeric input that is not an int (a non-zero
    float) raises AttributeError instead of being returned. -/
theorem clean_numeric_int_only :
    (∀ n : Int, clean_deduction (.int n) =
      .ok (.dict [("value", .int n), ("credit", .bool false)])) ∧
    (∀ q : ℚ, q ≠ 0 → clean_deduction (.float q) = .error .attributeError) := by
  constructor
  · intro n
    rfl
  · intro q hq
    simp [clean_deduction, hq]

/-- Witness for the amended C9 at the concrete inputs 4500 and 4500.0. -/
theorem clean_numeric_int_only_witness :
    clean_deduction (.int 4500) =
      .ok (.dict [("value", .int 4500), ("credit", .bool false)]) ∧
    clean_deduction (.float 4500) = .error .attributeError :=
  ⟨clean_numeric_int_only.1 4500, clean_numeric_int_only.2 4500 (by norm_num)⟩

/-- Claim C6, counterexample: a trailing parenthetical footnote marker does
    not resolve to the same code.  Truncating "Alabama (a)" at the first
    parenthesis leaves the trailing space in place, the lookup key
    "alabama " misses the table, and the resolver returns the empty code
    while plain "Alabama" resolves to "AL". -/
theorem state_name_paren_counterexample :
    get_state_code (.str "Alabama (a)") = .ok "" ∧
    get_state_code (.str "Alabama") = .ok "AL" ∧
    ("" : String) ≠ "AL" :=
  ⟨rfl, rfl, by decide⟩

/-- Claim C6, amended: for every entry of the name table, casing variants,
    appended periods, and a parenthetical attached directly to the name
    all resolve to the entry's code, but a parenthetical preceded by a
    space leaves a trailing space in the truncated name and resolves to
    the empty code instead. -/
theorem state_name_variants (p : String × String) (hp : p ∈ STATE_CODE_MAP) :
    get_state_code (.str p.1) = .ok p.2 ∧
    get_state_code (.str (strUpper p.1)) = .ok p.2 ∧
    get_state_code (.str (p.1 ++ ".")) = .ok p.2 ∧
    get_state_code (.str (p.1 ++ "(a)")) = .ok p.2 ∧
    get_state_code (.str (p.1 ++ " (a)")) = .ok "" := by
  fin_cases hp <;> exact ⟨rfl, rfl, rfl, rfl, rfl⟩

/-- Witness for the amended C6 at the Alabama entry. -/
theorem state_name_variants_witness :
    get_state_code (.str "alabama") = .ok "AL" ∧
    get_state_code (.str (strUpper "alabama")) = .ok "AL" ∧
    get_state_code (.str ("alabama" ++ ".")) = .ok "AL" ∧
    get_state_code (.str ("alabama" ++ "(a)")) = .ok "AL" ∧
    get_state_code (.str ("alabama" ++ " (a)")) = .ok "" :=
  state_name_variants ("alabama", "AL") (by decide)

/-! ### Record shape and bracket invariants -/

/-- The length of the bracket list stored under a key of a record. -/
def bracket_len (rec : PyVal) (k : String) : Nat :=
  match dlookup rec k with
  | some (.list xs) => xs.length
  | _ => 0

/-- Claim C5: whenever the extractor returns a record, the single and
    married bracket lists both exist and have equal length - both
    branches build them from the same filtered row list (or both empty). -/
theorem single_married_equal_length :
    ∀ rows code rec, process_state rows = .ok (code, rec) →
      (dlookup rec "single").isSome = true ∧
      (dlookup rec "married").isSome = true ∧
      bracket_len rec "single" = bracket_len rec "married" := by
  intro rows code rec h
  cases rows with
  | nil => exact Except.noConfusion h
  | cons row0 rest =>
    simp only [process_state] at h
    split at h
    · exact Except.noConfusion h
    · split at h
      · exact Except.noConfusion h
      · split at h
        · exact Except.noConfusion h
        · split at h
          · rw [Except.ok.injEq, Prod.mk.injEq] at h
            obtain ⟨h1, h2⟩ := h
            subst h2
            exact ⟨rfl, rfl, rfl⟩
          · rw [Except.ok.injEq, Prod.mk.injEq] at h
            obtain ⟨h1, h2⟩ := h
            subst h2
            refine ⟨rfl, rfl, ?_⟩
            show (((row0 :: rest).filter is_data_row).map bracket_single).length =
              (((row0 :: rest).filter is_data_row).map bracket_married).length
            simp [List.length_map]

/-- The two-row Alabama block. -/
def sample_block : List Row := [alabama_row, cont_row]

/-- The record the extractor produces on the Alabama block. -/
def sample_rec : PyVal :=
  match process_state sample_block with
  | .ok (_, r) => r
  | .error _ => .none

/-- Witness for C5 on the concrete Alabama block. -/
theorem single_married_equal_length_witness :
    (dlookup sample_rec "single").isSome = true ∧
    (dlookup sample_rec "married").isSome = true ∧
    bracket_len sample_rec "single" = bracket_len sample_rec "married" :=
  single_married_equal_length sample_block "AL" sample_rec rfl

/-- Claim C7: when the first row's third column is a merge-continuation
    cell, the record has empty bracket lists and the first row's second
    column value is appended after whatever the regular notes step
    collected. -/
theorem special_case_branch :
    ∀ row0 rest code rec notes codes,
      process_state (row0 :: rest) = .ok (code, rec) →
      (cellAt row0 2).merged = true →
      extract_notes row0 rest.head? = .ok (notes, codes) →
      dlookup rec "single" = some (.list []) ∧
      dlookup rec "married" = some (.list []) ∧
      dlookup rec "notes" = some (.list (notes ++ [(cellAt row0 1).value])) := by
  intro row0 rest code rec notes codes h hm hn
  simp only [process_state] at h
  split at h
  · exact Except.noConfusion h
  · split at h
    · exact Except.noConfusion h
    · split at h
      · exact Except.noConfusion h
      · rename_i notes2 codes2 heq
        rw [hn, Except.ok.injEq, Prod.mk.injEq] at heq
        obtain ⟨h3, h4⟩ := heq
        subst h3
        rw [if_pos hm, Except.ok.injEq, Prod.mk.injEq] at h
        obtain ⟨h1, h2⟩ := h
        subst h2
        exact ⟨rfl, rfl, rfl⟩

/-- A Nevada state-start row whose third column is a merge-continuation
    cell; column 1 carries the explanatory text and column 12 a regular
    note. -/
def nevada_row : Row :=
  [pcell (.str "Nevada (b)"), pcell (.str "No income tax"), mcell] ++
    mkRow (List.replicate 9 .none ++ [.str "a regular note"])

/-- A blank second row for the Nevada block. -/
def nevada_cont_row : Row := mkRow (List.replicate 13 .none)

/-- The Nevada block. -/
def nevada_block : List Row := [nevada_row, nevada_cont_row]

/-- The record the extractor produces on the Nevada block. -/
def nevada_rec : PyVal :=
  match process_state nevada_block with
  | .ok (_, r) => r
  | .error _ => .none

/-- The regular notes collected on the Nevada block. -/
def nevada_notes : List PyVal :=
  ((extract_notes nevada_row (some nevada_cont_row)).toOption.getD ([], [])).1

/-- The reference codes collected on the Nevada block. -/
def nevada_codes : List String :=
  ((extract_notes nevada_row (some nevada_cont_row)).toOption.getD ([], [])).2

/-- Witness for C7 on the concrete Nevada block, whose regular notes list
    is already non-empty before the append. -/
theorem special_case_branch_witness :
    dlookup nevada_rec "single" = some (.list []) ∧
    dlookup nevada_rec "married" = some (.list []) ∧
    dlookup nevada_rec "notes" =
      some (.list (nevada_notes ++ [(cellAt nevada_row 1).value])) :=
  special_case_branch nevada_row [nevada_cont_row] "" nevada_rec
    nevada_notes nevada_codes rfl rfl rfl

/-- Claim C4, counterexample: the record produced for the Alabama block
    has no top-level standard_deductions key; the deduction entries sit
    under a single deductions key instead. -/
theorem record_shape_counterexample :
    (process_state sample_block).map (fun p => dlookup p.2 "standard_deductions") =
      .ok Option.none ∧
    (process_state sample_block).map (fun p => (dlookup p.2 "deductions").isSome) =
      .ok true :=
  ⟨rfl, rfl⟩

/-- The nested dict `extract_deductions` builds always has the keys
    standard_deductions (with single and married entries) and
    personal_exemptions (with single, married and dependant entries). -/
theorem extract_deductions_shape :
    ∀ row d, extract_deductions row = .ok d →
      dict_keys d = ["standard_deductions", "personal_exemptions"] ∧
      (∀ sd, dlookup d "standard_deductions" = some sd →
        dict_keys sd = ["single", "married"]) ∧
      (∀ pe, dlookup d "personal_exemptions" = some pe →
        dict_keys pe = ["single", "married", "dependant"]) := by
  intro row d h
  simp only [extract_deductions] at h
  split at h
  · exact Except.noConfusion h
  · split at h
    · exact Except.noConfusion h
    · split at h
      · exact Except.noConfusion h
      · split at h
        · exact Except.noConfusion h
        · split at h
          · exact Except.noConfusion h
          · rw [Except.ok.injEq] at h
            subst h
            refine ⟨rfl, ?_, ?_⟩
            · intro sd hsd
              have h2 := Option.some.inj hsd
              rw [← h2]
              rfl
            · intro pe hpe
              have h2 := Option.some.inj hpe
              rw [← h2]
              rfl

/-- Claim C4, amended: every record the extractor returns has the
    top-level keys single, married, notes, note_codes and deductions (the
    two branches order notes and note_codes differently), and the
    deductions entry holds the standard_deductions and
    personal_exemptions sub-dicts; those two are not top-level keys. -/
theorem state_record_key_shape :
    ∀ rows code rec, process_state rows = .ok (code, rec) →
      (dict_keys rec = ["single", "married", "notes", "note_codes", "deductions"] ∨
       dict_keys rec = ["single", "married", "note_codes", "notes", "deductions"]) ∧
      (∀ d, dlookup rec "deductions" = some d →
        dict_keys d = ["standard_deductions", "personal_exemptions"] ∧
        (∀ sd, dlookup d "standard_deductions" = some sd →
          dict_keys sd = ["single", "married"]) ∧
        (∀ pe, dlookup d "personal_exemptions" = some pe →
          dict_keys pe = ["single", "married", "dependant"])) := by
  intro rows code rec h
  cases rows with
  | nil => exact Except.noConfusion h
  | cons row0 rest =>
    simp only [process_state] at h
    split at h
    · exact Except.noConfusion h
    · split at h
      · exact Except.noConfusion h
      · rename_i ded hded
        split at h
        · exact Except.noConfusion h
        · split at h
          · rw [Except.ok.injEq, Prod.mk.injEq] at h
            obtain ⟨h1, h2⟩ := h
            subst h2
            refine ⟨Or.inl rfl, ?_⟩
            intro d hd
            have h3 := Option.some.inj hd
            rw [← h3]
            exact extract_deductions_shape row0 ded hded
          · rw [Except.ok.injEq, Prod.mk.injEq] at h
            obtain ⟨h1, h2⟩ := h
            subst h2
            refine ⟨Or.inr rfl, ?_⟩
            intro d hd
            have h3 := Option.some.inj hd
            rw [← h3]
            exact extract_deductions_shape row0 ded hded

/-- The deductions dict built from the Alabama row. -/
def sample_deductions : PyVal := (extract_deductions alabama_row).toOption.getD .none

/-- Witness for the amended C4 on the concrete Alabama block. -/
theorem state_record_key_shape_witness :
    (dict_keys sample_rec = ["single", "married", "notes", "note_codes", "deductions"] ∨
     dict_keys sample_rec = ["single", "married", "note_codes", "notes", "deductions"]) ∧
    dict_keys sample_deductions = ["standard_deductions", "personal_exemptions"] := by
  have h := state_record_key_shape sample_block "AL" sample_rec rfl
  exact ⟨h.1, (h.2 sample_deductions rfl).1⟩

/-! ### Year driver behaviour -/

/-- Claim C8: whenever the driver completes, its dataset holds exactly one
    year entry, keyed by the lexicographically greatest sheet name among
    those matching the year pattern; no other matching sheet is processed. -/
theorem driver_processes_single_most_recent_year :
    ∀ sheets res, main_run sheets = .ok res →
      res.map Prod.fst = [main_year sheets] ∧
      main_year sheets ∈ year_matching sheets ∧
      ∀ n ∈ year_matching sheets, str_le n (main_year sheets) = true := by
  intro sheets res h
  simp only [main_run] at h
  split at h
  · exact Except.noConfusion h
  · rename_i top rest2 hsort
    split at h
    · exact Except.noConfusion h
    · split at h
      · exact Except.noConfusion h
      · rw [Except.ok.injEq] at h
        subst h
        have htop : main_year sheets = top := by
          simp [main_year, hsort]
        refine ⟨by simp [htop], ?_, ?_⟩
        · rw [htop]
          have hmem : top ∈ sort_desc (year_matching sheets) := by
            rw [hsort]
            exact List.mem_cons_self _ _
          exact (mem_sort_desc _ _).mp hmem
        · intro n hn
          have hmax := sort_desc_head_max (year_matching sheets) n "" hn
          rw [hsort, List.headD_cons] at hmax
          rw [htop]
          exact hmax

/-- A Maryland state-start row. -/
def md_row : Row := mkRow [.str "Maryland", .int 2, .none, .int 1000, .int 2, .none,
  .int 1000, .int 2300, .int 4650, .int 3200, .int 6400, .int 3200, .none]

/-- A Michigan state-start row following the Maryland block. -/
def mi_row : Row := mkRow [.str "Michigan", .int 4, .none, .none, .int 4, .none,
  .none, .none, .none, .int 5000, .int 10000, .int 5000, .none]

/-- The 2023 sheet: Maryland block, Michigan start, then the footer
    sentinel (Maryland is flushed when the Michigan row starts). -/
def sheet_2023 : List Row := [md_row, cont_row, mi_row, sentinel_row]

/-- The 2022 sheet, never processed by the driver. -/
def sheet_2022 : List Row := [sentinel_row]

/-- A workbook with two year-named sheets and one other sheet. -/
def wb_c8 : List (String × List Row) :=
  [("2022", sheet_2022), ("2023", sheet_2023), ("Summary", [])]

/-- The mapping processing the 2023 sheet yields. -/
def states_2023 : List (String × PyVal) := (process_sheet sheet_2023).toOption.getD []

/-- Witness for C8: on the two-year workbook the driver returns only the
    2023 entry, and 2022 is bounded by the processed name. -/
theorem driver_processes_single_most_recent_year_witness :
    main_run wb_c8 = .ok [("2023", states_2023)] ∧ str_le "2022" "2023" = true := by
  have h := driver_processes_single_most_recent_year wb_c8 [("2023", states_2023)] rfl
  have h2 := h.2.2 "2022" (by decide)
  have h3 : main_year wb_c8 = "2023" := rfl
  rw [h3] at h2
  exact ⟨rfl, h2⟩

end StateIncomeTax
